import Mathlib

/-!
Shallow embedding of the BucketKit React upload orchestration engine
(`packages/bucketkit-react/src/context.tsx`): the upload record store, the
admission controller (`processQueue`), the transfer engine (`uploadFile`
together with `getPresignedUrl`), and the public lifecycle operations
(`addFiles`, `uploadFiles`, `cancelUpload`, `removeItem`, `retryUpload`,
`clearCompleted`), plus the derived `progress` view.

The provider is a React function component.  Two facts of the source's
execution model are modelled explicitly because the claims depend on them:

* `processQueue` is a `useCallback` closure over the `items` state of the
  render in which it was created.  A call scheduled with
  `setTimeout(() => processQueue(), 0)` therefore runs against the items
  list captured *before* any `setItems` performed in the same handler,
  while the mutable refs (`uploadQueueRef`, `abortControllers`) and the
  functional `setItems` updates it performs act on the *current* state.
  Every admission pass therefore carries an explicit `snapshot` items list.

* `uploadFile` registers the `xhr.abort()` listener on the abort signal
  only after destination resolution succeeds; per DOM semantics a listener
  added to an already-aborted signal never fires, so an abort requested
  while resolution is still pending does not stop the transfer.
-/

namespace BucketKit

/-- Upload status, from `UploadStatus` in the React package types. -/
inductive Status where
  | queued
  | uploading
  | complete
  | error
deriving DecidableEq, Repr

/-- One upload record (`UploadItem`).  The `file` field stands for the
opaque `File` handle held by the record. -/
structure UploadItem where
  id : Nat
  fileName : String
  size : Nat
  contentType : String
  file : Nat
  status : Status
  progress : Nat
  error : Option String := none
  url : Option String := none
  key : Option String := none
deriving DecidableEq, Repr

/-- A partial update, as passed to `updateItem(id, updates)`.  A field set
to `none` is absent from the update object; `some v` sets the field to
`v` (for the optional fields `some none` models an explicit
`undefined`, as in `retryUpload`). -/
structure ItemUpdate where
  status : Option Status := none
  progress : Option Nat := none
  error : Option (Option String) := none
  url : Option (Option String) := none
  key : Option (Option String) := none
deriving DecidableEq, Repr

/-- Object spread `{ ...item, ...updates }`. -/
def applyUpdate (item : UploadItem) (u : ItemUpdate) : UploadItem :=
  { item with
    status := u.status.getD item.status
    progress := u.progress.getD item.progress
    error := u.error.getD item.error
    url := u.url.getD item.url
    key := u.key.getD item.key }

/-- `updateItem`: functional `setItems` mapping the update over the record
with the given id. -/
def updateItem (items : List UploadItem) (id : Nat) (u : ItemUpdate) :
    List UploadItem :=
  items.map fun item => if item.id = id then applyUpdate item u else item

/-- Stage of a live `uploadFile` invocation: awaiting the presigned-URL
response, or streaming bytes through the `XMLHttpRequest`. -/
inductive Stage where
  | resolving
  | transferring (url : String) (key : String)
deriving DecidableEq, Repr

/-- A live `uploadFile` invocation together with its `AbortController`
(the controller exists exactly while the invocation is live; it is
created on entry and deleted in the `finally` block).  `item` is the
record object captured at admission time.  `signalAborted` records
`controller.abort()` having been called while still resolving: the
`xhr.abort` listener is added to the signal only after resolution, and a
listener added to an already-aborted signal never fires, so this flag has
no further effect on the transfer.  `xhrAborted` records `xhr.abort()`
having been invoked by the listener while the transfer was in flight; it
leads to rejection with message "Upload cancelled". -/
structure Transfer where
  item : UploadItem
  stage : Stage
  signalAborted : Bool := false
  xhrAborted : Bool := false
deriving DecidableEq, Repr

/-- Callback invocations observable at the provider boundary. -/
inductive CallbackEvent where
  | uploadComplete (item : UploadItem)
  | errorCb (message : String) (item : UploadItem)
deriving DecidableEq, Repr

/-- Metadata of a `File` passed to `addFiles`. -/
structure FileMeta where
  name : String
  size : Nat
  contentType : String
  file : Nat
deriving DecidableEq, Repr

/-- Whole-provider state: the `items` React state, the two refs, the
pending `setTimeout(() => processQueue(), 0)` closures (each with the
items list it captured), and the log of emitted callbacks.  `nextId`
models `generateUploadId` producing fresh ids. -/
structure Sys where
  maxConcurrent : Nat
  autoUpload : Bool
  items : List UploadItem := []
  uploadQueue : List Nat := []
  transfers : List Transfer := []
  scheduled : List (List UploadItem) := []
  events : List CallbackEvent := []
  nextId : Nat := 0
deriving DecidableEq, Repr

/-- Initial provider state. -/
def initSys (maxC : Nat) (auto : Bool) : Sys :=
  { maxConcurrent := maxC, autoUpload := auto }

/-- Count of records with `status = uploading`. -/
def countUploading (items : List UploadItem) : Nat :=
  (items.filter fun i => i.status == Status.uploading).length

/-- `items.filter(item => item.status === "queued" &&
!uploadQueueRef.current.has(item.id))`.  (`uploadQueueRef` is a `Set`;
it is modelled as a list whose `contains`/delete-all behaviour matches
set membership.) -/
def queuedAvail (items : List UploadItem) (ref : List Nat) :
    List UploadItem :=
  items.filter fun i => i.status == Status.queued && !(ref.contains i.id)

/-- JavaScript `arr.slice(0, n)`: a negative `n` counts from the end. -/
def sliceLen (len : Nat) (n : Int) : Nat :=
  if 0 ≤ n then n.toNat else len - (-n).toNat

/-- `arr.slice(0, n)` itself. -/
def jsSlice0 {α : Type} (l : List α) (n : Int) : List α :=
  l.take (sliceLen l.length n)

/-- The selection made by `processQueue` from the snapshot it closed
over: queued records not marked admission-in-flight, up to
`maxConcurrent - uploadingCount` (computed in `Int`, since the JS
subtraction can go negative and `slice` then counts from the end). -/
def admitSelection (snapshot : List UploadItem) (ref : List Nat)
    (maxC : Nat) : List UploadItem :=
  jsSlice0 (queuedAvail snapshot ref)
    ((maxC : Int) - (countUploading snapshot : Int))

/-- The `updateItem` performed synchronously on entry to `uploadFile`. -/
def uploadingUpdate : ItemUpdate :=
  { status := some Status.uploading, progress := some 0 }

/-- Admitting one record: `uploadQueueRef.current.add(item.id)` followed
by the synchronous prefix of `uploadFile(item)` (register the abort
controller, set the record to `uploading`/`progress 0`, suspend awaiting
resolution). -/
def startUpload (S : Sys) (item : UploadItem) : Sys :=
  { S with
    uploadQueue := S.uploadQueue ++ [item.id]
    transfers := S.transfers ++ [{ item := item, stage := Stage.resolving }]
    items := updateItem S.items item.id uploadingUpdate }

/-- One invocation of `processQueue` whose closure captured `snapshot`:
the selection is computed from the snapshot and the current refs, and the
admissions act on the current state. -/
def processQueueStep (snapshot : List UploadItem) (S : Sys) : Sys :=
  (admitSelection snapshot S.uploadQueue S.maxConcurrent).foldl startUpload S

/-- Record created by `addFiles` for one file. -/
def mkItem (fid : Nat) (f : FileMeta) : UploadItem :=
  { id := fid
    fileName := f.name
    size := f.size
    contentType := f.contentType
    file := f.file
    status := Status.queued
    progress := 0 }

/-- `addFiles(files)`: append fresh `queued` records; with `autoUpload`,
schedule a deferred `processQueue`.  The scheduled closure is the
`processQueue` of the render in which this `addFiles` was created, so the
snapshot it will run against is the items list *before* the append. -/
def addFilesOp (S : Sys) (files : List FileMeta) : Sys :=
  let newItems := files.enum.map fun p => mkItem (S.nextId + p.1) p.2
  let appended :=
    { S with items := S.items ++ newItems, nextId := S.nextId + files.length }
  if S.autoUpload then
    { appended with scheduled := appended.scheduled ++ [S.items] }
  else appended

/-- `uploadFiles(files?)`: optional `addFiles`, then a synchronous
`processQueue` — whose closure likewise captured the items list from
before any append performed in this call. -/
def uploadFilesOp (S : Sys) (files : Option (List FileMeta)) : Sys :=
  let snapshot := S.items
  let added := match files with
    | some fs => addFilesOp S fs
    | none => S
  processQueueStep snapshot added

/-- Effect of `controller.abort()` on a live invocation: while
transferring, the registered listener calls `xhr.abort()`; while still
resolving, only the signal flips (the listener does not exist yet and
will be registered on an already-aborted signal, hence never fire). -/
def abortTransfer (t : Transfer) : Transfer :=
  match t.stage with
  | Stage.resolving => { t with signalAborted := true }
  | Stage.transferring _ _ => { t with xhrAborted := true }

/-- `cancelUpload(id)`: abort the controller if one exists, then
force-set the record to `error`/"Cancelled" regardless of its status. -/
def cancelUploadOp (S : Sys) (id : Nat) : Sys :=
  { S with
    transfers :=
      S.transfers.map fun t =>
        if t.item.id == id then abortTransfer t else t
    items :=
      S.items.map fun item =>
        if item.id = id then
          { item with status := Status.error, error := some "Cancelled" }
        else item }

/-- `removeItem(id)`: `cancelUpload(id)` then delete the record. -/
def removeItemOp (S : Sys) (id : Nat) : Sys :=
  let c := cancelUploadOp S id
  { c with items := c.items.filter fun item => item.id ≠ id }

/-- `retryUpload(id)`: unconditionally reset the record to
`queued`/`progress 0`/no error, and schedule a deferred `processQueue`
(whose closure captured the pre-mutation items list). -/
def retryUploadOp (S : Sys) (id : Nat) : Sys :=
  { S with
    items :=
      S.items.map fun item =>
        if item.id = id then
          { item with status := Status.queued, progress := 0, error := none }
        else item
    scheduled := S.scheduled ++ [S.items] }

/-- `clearCompleted()`. -/
def clearCompletedOp (S : Sys) : Sys :=
  { S with
    items :=
      S.items.filter fun item =>
        item.status != Status.complete && item.status != Status.error }

/-- `error.error || error.message || fallback` on a string field: a
falsy (absent or empty) value falls through. -/
def jsStringOr (v : Option String) (fallback : String) : String :=
  match v with
  | some s => if s = "" then fallback else s
  | none => fallback

/-- Message of the `Error` thrown by `getPresignedUrl` on a non-2xx
resolver response whose JSON body carried the given `error` / `message`
fields. -/
def resolverFailureMsg (errField msgField : Option String) : String :=
  jsStringOr errField (jsStringOr msgField "Failed to get upload URL")

/-- `abortControllers.current.delete(id)` together with the end of the
`uploadFile` invocation. -/
def dropTransfer (ts : List Transfer) (id : Nat) : List Transfer :=
  ts.eraseP fun t => t.item.id == id

/-- The update applied on successful completion. -/
def completeUpdate (url key : String) : ItemUpdate :=
  { status := some Status.complete
    progress := some 100
    url := some (some url)
    key := some (some key) }

/-- The update applied in the `catch` block for failure message `m`:
classification is purely by the message string. -/
def failureUpdate (m : String) : ItemUpdate :=
  if m = "Upload cancelled" then
    { status := some Status.error, error := some (some "Cancelled") }
  else
    { status := some Status.error, error := some (some m) }

/-- Terminal success of a transfer: record set to `complete`, the
completion callback fired with the spread `completedItem`, then the
`finally` block releases the controller and the admission marker. -/
def finishOk (S : Sys) (t : Transfer) (url key : String) : Sys :=
  let completed : UploadItem :=
    { t.item with
      status := Status.complete
      progress := 100
      url := some url
      key := some key }
  { S with
    items := updateItem S.items t.item.id (completeUpdate url key)
    events := S.events ++ [CallbackEvent.uploadComplete completed]
    transfers := dropTransfer S.transfers t.item.id
    uploadQueue := S.uploadQueue.filter fun k => k ≠ t.item.id }

/-- Terminal failure with message `m`: the `catch` block (which skips
`onError` exactly when `m` is "Upload cancelled") then the `finally`
block. -/
def finishFail (S : Sys) (t : Transfer) (m : String) : Sys :=
  let ev : List CallbackEvent :=
    if m = "Upload cancelled" then []
    else [CallbackEvent.errorCb m t.item]
  { S with
    items := updateItem S.items t.item.id (failureUpdate m)
    events := S.events ++ ev
    transfers := dropTransfer S.transfers t.item.id
    uploadQueue := S.uploadQueue.filter fun k => k ≠ t.item.id }

/-- `Math.round(t / n)` for naturals (`n > 0` in every use). -/
def jsRound (t n : Nat) : Nat := (2 * t + n) / (2 * n)

/-- Records entering the `progress` average. -/
def relevantForProgress (i : UploadItem) : Bool :=
  i.status == Status.uploading || i.status == Status.complete

/-- The derived `progress` value (`overallProgress` in the spec):
`Math.round` of the mean progress over uploading/complete records, `0`
when there are none. -/
def overallProgress (items : List UploadItem) : Nat :=
  let relevant := items.filter relevantForProgress
  if relevant.length = 0 then 0
  else jsRound (relevant.foldl (fun acc i => acc + i.progress) 0)
    relevant.length

/-- Public operations of the provider. -/
inductive Op where
  | addFiles (files : List FileMeta)
  | uploadFiles (files : Option (List FileMeta))
  | cancelUpload (id : Nat)
  | removeItem (id : Nat)
  | retryUpload (id : Nat)
  | clearCompleted
deriving DecidableEq, Repr

/-- External stimuli: public API calls, the firing of a scheduled
deferred `processQueue` (FIFO), and the asynchronous outcomes of
resolver calls and transfers. -/
inductive Msg where
  | api (op : Op)
  | fireScheduled
  | resolveOk (id : Nat) (url key : String)
  | resolveHttpErr (id : Nat) (errField msgField : Option String)
  | resolveNetErr (id : Nat) (m : String)
  | xhrProgress (id loaded total : Nat)
  | xhrLoad (id httpStatus : Nat)
  | xhrNetErr (id : Nat)
  | xhrAbort (id : Nat)
deriving DecidableEq, Repr

/-- Dispatch of a public operation. -/
def apiStep (S : Sys) : Op → Sys
  | Op.addFiles files => addFilesOp S files
  | Op.uploadFiles files => uploadFilesOp S files
  | Op.cancelUpload id => cancelUploadOp S id
  | Op.removeItem id => removeItemOp S id
  | Op.retryUpload id => retryUploadOp S id
  | Op.clearCompleted => clearCompletedOp S

/-- The live invocation for an id, as `abortControllers.current.get`
finds it. -/
def findTransfer (S : Sys) (id : Nat) : Option Transfer :=
  S.transfers.find? fun t => t.item.id == id

/-- One observable step.  Stimuli that no live transfer can produce
(an outcome for an absent id, an xhr event in the wrong stage, a load
after an abort) leave the state unchanged. -/
def step (S : Sys) : Msg → Sys
  | Msg.api op => apiStep S op
  | Msg.fireScheduled =>
    match S.scheduled with
    | [] => S
    | snap :: rest => processQueueStep snap { S with scheduled := rest }
  | Msg.resolveOk id url key =>
    match findTransfer S id with
    | some t =>
      match t.stage with
      | Stage.resolving =>
        { S with
          transfers :=
            S.transfers.map fun t' =>
              if t'.item.id == id then
                { t' with stage := Stage.transferring url key }
              else t' }
      | Stage.transferring _ _ => S
    | none => S
  | Msg.resolveHttpErr id errField msgField =>
    match findTransfer S id with
    | some t =>
      match t.stage with
      | Stage.resolving => finishFail S t (resolverFailureMsg errField msgField)
      | Stage.transferring _ _ => S
    | none => S
  | Msg.resolveNetErr id m =>
    match findTransfer S id with
    | some t =>
      match t.stage with
      | Stage.resolving => finishFail S t m
      | Stage.transferring _ _ => S
    | none => S
  | Msg.xhrProgress id loaded total =>
    match findTransfer S id with
    | some t =>
      match t.stage with
      | Stage.transferring _ _ =>
        if t.xhrAborted then S
        else
          { S with
            items :=
              updateItem S.items id
                { progress := some (jsRound (loaded * 100) total) } }
      | Stage.resolving => S
    | none => S
  | Msg.xhrLoad id httpStatus =>
    match findTransfer S id with
    | some t =>
      match t.stage with
      | Stage.transferring url key =>
        if t.xhrAborted then S
        else if 200 ≤ httpStatus ∧ httpStatus < 300 then finishOk S t url key
        else
          finishFail S t
            ("Upload failed with status " ++ toString httpStatus)
      | Stage.resolving => S
    | none => S
  | Msg.xhrNetErr id =>
    match findTransfer S id with
    | some t =>
      match t.stage with
      | Stage.transferring _ _ =>
        if t.xhrAborted then S else finishFail S t "Upload failed"
      | Stage.resolving => S
    | none => S
  | Msg.xhrAbort id =>
    match findTransfer S id with
    | some t =>
      match t.stage with
      | Stage.transferring _ _ =>
        if t.xhrAborted then finishFail S t "Upload cancelled" else S
      | Stage.resolving => S
    | none => S

/-- Run a stimulus sequence. -/
def run (S : Sys) (msgs : List Msg) : Sys :=
  msgs.foldl step S

/-- Average of `progress` over uploading/complete records, `0` when that
set is empty.  Modelled from the spec's words for `overallProgress`, as
the exact (rational) average, for comparison with the implementation's
`overallProgress`. -/
def specAverage (items : List UploadItem) : ℚ :=
  let relevant := items.filter relevantForProgress
  if relevant.length = 0 then 0
  else ((relevant.map UploadItem.progress).sum : ℚ) / (relevant.length : ℚ)

/-! Concrete inputs used by witnesses and counterexamples. -/

/-- A sample file. -/
def exFileA : FileMeta :=
  { name := "a.txt", size := 10, contentType := "text/plain", file := 0 }

/-- Another sample file. -/
def exFileB : FileMeta :=
  { name := "b.txt", size := 20, contentType := "text/plain", file := 1 }

/-- A completed record. -/
def exItemComplete : UploadItem :=
  { id := 0
    fileName := "c.txt"
    size := 1
    contentType := "text/plain"
    file := 0
    status := Status.complete
    progress := 100
    url := some "https://bucket/c"
    key := some "k/c.txt" }

/-- An uploading record at 40%. -/
def exItemUploading40 : UploadItem :=
  { id := 1
    fileName := "u.txt"
    size := 1
    contentType := "text/plain"
    file := 1
    status := Status.uploading
    progress := 40 }

/-- A queued record. -/
def exItemQueued : UploadItem :=
  { id := 2
    fileName := "q.txt"
    size := 1
    contentType := "text/plain"
    file := 2
    status := Status.queued
    progress := 0 }

/-- An uploading record at 0%. -/
def exItemUp0 : UploadItem :=
  { id := 3
    fileName := "u0.txt"
    size := 1
    contentType := "text/plain"
    file := 3
    status := Status.uploading
    progress := 0 }

/-- An uploading record at 1%. -/
def exItemUp1 : UploadItem :=
  { id := 4
    fileName := "u1.txt"
    size := 1
    contentType := "text/plain"
    file := 4
    status := Status.uploading
    progress := 1 }

/-- A state holding a single completed record. -/
def exCompleteSys : Sys :=
  { initSys 3 false with items := [exItemComplete] }

/-- Stimulus trace for the concurrency-limit violation: two files are
added with `maxConcurrent = 1`; a `retryUpload` schedules a deferred
`processQueue` that closes over the items list while both records are
still queued; `uploadFiles` then admits the first record; when the
deferred pass fires, its stale snapshot still shows zero uploading
records, and the admission-in-flight marker only excludes the first
record, so the second is admitted as well. -/
def exTraceC1 : List Msg :=
  [ Msg.api (Op.addFiles [exFileA, exFileB])
  , Msg.api (Op.retryUpload 0)
  , Msg.api (Op.uploadFiles none)
  , Msg.fireScheduled ]

/-- Stimulus trace for auto-upload: one file is added with `autoUpload`
on, then the deferred `processQueue` scheduled by `addFiles` fires with
no other activity. -/
def exTraceC2 : List Msg :=
  [ Msg.api (Op.addFiles [exFileA]), Msg.fireScheduled ]

/-- Stimulus trace: a record is admitted, cancelled while the
destination is still being resolved, after which resolution succeeds and
the transfer runs to completion. -/
def exTraceC4 : List Msg :=
  [ Msg.api (Op.addFiles [exFileA])
  , Msg.api (Op.uploadFiles none)
  , Msg.api (Op.cancelUpload 0)
  , Msg.resolveOk 0 "https://bucket/a" "k/a.txt"
  , Msg.xhrLoad 0 200 ]

/-- Stimulus trace: a record is admitted and the resolver rejects with a
non-2xx response whose body is `{"error": "Upload cancelled"}`. -/
def exTraceC6 : List Msg :=
  [ Msg.api (Op.addFiles [exFileA])
  , Msg.api (Op.uploadFiles none)
  , Msg.resolveHttpErr 0 (some "Upload cancelled") none ]

/-- A queued record as `addFiles` creates it for `exFileA`. -/
def exItemA : UploadItem := mkItem 0 exFileA

/-- The same record after the `uploading` update. -/
def exItemAUp : UploadItem := applyUpdate exItemA uploadingUpdate

/-- A live invocation for `exItemA` still resolving its destination. -/
def exTransferResolving : Transfer :=
  { item := exItemA, stage := Stage.resolving }

/-- A live invocation for `exItemA` with the byte transfer in flight. -/
def exTransferXfer : Transfer :=
  { item := exItemA, stage := Stage.transferring "https://bucket/a" "k/a.txt" }

/-- A provider state with one uploading record whose byte transfer is in
flight. -/
def exUploadingSys : Sys :=
  { initSys 1 false with
    items := [exItemAUp]
    uploadQueue := [0]
    transfers := [exTransferXfer] }

/-- A provider state with one uploading record still resolving its
destination. -/
def exResolvingSys : Sys :=
  { initSys 1 false with
    items := [exItemAUp]
    uploadQueue := [0]
    transfers := [exTransferResolving] }

/-- A provider state with two queued records and `maxConcurrent = 1`. -/
def exQueuedSys : Sys :=
  { initSys 1 false with items := [exItemA, mkItem 1 exFileB] }

/-- Batched effect on the record list of the sequential `uploading`
updates performed for a set of admitted ids. -/
def markUploading (ids : List Nat) (items : List UploadItem) :
    List UploadItem :=
  items.map fun i =>
    if ids.contains i.id then applyUpdate i uploadingUpdate else i

/-- Claim C1: with `maxConcurrent = 1`, the public-operation trace
`exTraceC1` drives the store to a state with two records of
`status = uploading`: a `processQueue` invocation whose closure reads a
stale items list under-counts the uploading records and admits past the
concurrency limit, so the bound claimed by the spec is violated. -/
theorem c1_concurrency_limit_violated_on_trace :
    (run (initSys 1 false) exTraceC1).maxConcurrent = 1 ∧
    countUploading (run (initSys 1 false) exTraceC1).items = 2 := by
  exact ⟨rfl, by decide⟩

/-- Claim C2: adding `K = 1` file with `autoUpload` on and
`maxConcurrent = 3` leaves the record `queued` after the deferred
admission pass scheduled by `addFiles` has fired: the pass runs against
the items list captured before the append (the stale `useCallback`
closure) and admits none of the new records, instead of the
`min(M, K) = 1` the claim requires. -/
theorem c2_autoUpload_admits_nothing_on_trace :
    countUploading (run (initSys 3 true) exTraceC2).items = 0 ∧
    (run (initSys 3 true) exTraceC2).items.map UploadItem.status
      = [Status.queued] ∧
    (run (initSys 3 true) exTraceC2).scheduled = [] := by
  refine ⟨by decide, by decide, by decide⟩

/-- Claim C3, counterexample: `cancelUpload` on a record that is already
`complete` does not leave it complete — the record is force-set to
`error` with message "Cancelled" (its stored `url` and `key` survive). -/
theorem c3_cancel_on_complete_counterexample :
    exCompleteSys.items.map UploadItem.status = [Status.complete] ∧
    (cancelUploadOp exCompleteSys 0).items.map UploadItem.status
      = [Status.error] ∧
    (cancelUploadOp exCompleteSys 0).items.map UploadItem.error
      = [some "Cancelled"] := by
  refine ⟨by decide, by decide, by decide⟩

/-- Claim C4, counterexample: a record cancelled while `uploading` but
still awaiting destination resolution is not aborted — the abort
listener is only registered after resolution, so the transfer proceeds
and its success overwrites the record to `complete` (with the stored
destination) and fires the completion callback. -/
theorem c4_cancel_while_resolving_counterexample :
    (run (initSys 1 false) exTraceC4).items.map UploadItem.status
      = [Status.complete] ∧
    (run (initSys 1 false) exTraceC4).items.map UploadItem.url
      = [some "https://bucket/a"] ∧
    (run (initSys 1 false) exTraceC4).events.length = 1 := by
  refine ⟨by decide, by decide, by decide⟩

/-- Claim C6, counterexample: a destination-resolution failure whose
message is exactly "Upload cancelled" (here produced by a non-2xx
resolver response with body `{"error": "Upload cancelled"}`) does not
invoke `onError` and does not store the failure message — the record's
error is set to "Cancelled" instead. -/
theorem c6_onError_counterexample :
    resolverFailureMsg (some "Upload cancelled") none = "Upload cancelled" ∧
    (run (initSys 3 false) exTraceC6).events = [] ∧
    (run (initSys 3 false) exTraceC6).items.map UploadItem.error
      = [some "Cancelled"] := by
  refine ⟨by decide, by decide, by decide⟩

/-- Claim C7, counterexample: for two uploading records at progress 0
and 1 the implementation's `overallProgress` is 1, while the average of
their progress values is 1/2 — `overallProgress` is the rounded average,
not the average. -/
theorem c7_average_counterexample :
    ((overallProgress [exItemUp0, exItemUp1] : ℚ))
      ≠ specAverage [exItemUp0, exItemUp1] := by
  have h1 : overallProgress [exItemUp0, exItemUp1] = 1 := by decide
  have h2 : specAverage [exItemUp0, exItemUp1] = 1 / 2 := by
    norm_num [specAverage, relevantForProgress, exItemUp0, exItemUp1,
      List.filter]
  rw [h1, h2]
  norm_num

theorem markUploading_nil (items : List UploadItem) :
    markUploading [] items = items := by
  simp [markUploading]

theorem markUploading_updateItem (ids : List Nat) (id : Nat)
    (items : List UploadItem) :
    markUploading ids (updateItem items id uploadingUpdate)
      = markUploading (id :: ids) items := by
  unfold markUploading updateItem
  rw [List.map_map]
  apply List.map_congr_left
  intro i _
  by_cases hid : i.id = id
  · by_cases hin : ids.contains i.id
    · simp [Function.comp, hid, hin, applyUpdate, uploadingUpdate]
    · simp [Function.comp, hid, hin, applyUpdate, uploadingUpdate]
  · have : ((id :: ids).contains i.id) = ids.contains i.id := by
      simp [List.contains_cons]
      intro h
      exact absurd h.symm (fun h2 => hid h2.symm)
    by_cases hin : ids.contains i.id
    · simp [Function.comp, hid, hin, this]
    · simp [Function.comp, hid, hin, this]

/-- Effect of one admission pass on the store, the refs and the
configuration: the selected records' ids are appended to the
admission-in-flight set and their records are set to `uploading`. -/
theorem foldl_startUpload_spec (L : List UploadItem) (S : Sys) :
    (L.foldl startUpload S).items
        = markUploading (L.map UploadItem.id) S.items ∧
    (L.foldl startUpload S).uploadQueue
        = S.uploadQueue ++ L.map UploadItem.id ∧
    (L.foldl startUpload S).maxConcurrent = S.maxConcurrent := by
  induction L generalizing S with
  | nil => simp [markUploading_nil]
  | cons x xs ih =>
    have h := ih (startUpload S x)
    refine ⟨?_, ?_, ?_⟩
    · rw [List.foldl_cons, h.1]
      simp only [startUpload]
      rw [markUploading_updateItem]
      simp
    · rw [List.foldl_cons, h.2.1]
      simp [startUpload]
    · rw [List.foldl_cons, h.2.2]
      rfl

theorem contains_append_nat (l₁ l₂ : List Nat) (a : Nat) :
    (l₁ ++ l₂).contains a = (l₁.contains a || l₂.contains a) := by
  induction l₁ with
  | nil => simp
  | cons x xs ih => simp [List.contains_cons, ih, Bool.or_assoc]

/-- After an admission pass, the available queued records are exactly
the previously available ones whose id was not admitted: admitted
records are now `uploading` (excluded by status) and also marked
in-flight (excluded by the ref). -/
theorem queuedAvail_markUploading (items : List UploadItem)
    (ref ids : List Nat) :
    queuedAvail (markUploading ids items) (ref ++ ids)
      = (queuedAvail items ref).filter fun i => !(ids.contains i.id) := by
  unfold queuedAvail markUploading
  rw [List.filter_map, List.filter_filter]
  have hfun : ∀ x ∈ items,
      ((fun i : UploadItem =>
          i.status == Status.queued && !(ref ++ ids).contains i.id) ∘
        (fun i : UploadItem =>
          if ids.contains i.id then applyUpdate i uploadingUpdate else i)) x
      = (!(ids.contains x.id) &&
          (x.status == Status.queued && !ref.contains x.id)) := by
    intro x _
    by_cases hin : x.id ∈ ids
    · simp [Function.comp, hin, applyUpdate, uploadingUpdate]
    · simp [Function.comp, hin, contains_append_nat]
  rw [List.filter_congr hfun]
  refine (List.map_congr_left ?_).trans (List.map_id _)
  intro x hx
  have hmem := List.mem_filter.mp hx
  have hnotin : ids.contains x.id = false := by
    have h2 := hmem.2
    simp only [Bool.and_eq_true, Bool.not_eq_true'] at h2
    exact h2.1
  have hnm : ¬ (x.id ∈ ids) := by simpa using hnotin
  simp [hnm]

theorem countP_or_split {α : Type} (l : List α) (p q : α → Bool) :
    l.countP (fun a => p a || q a)
      = l.countP p + l.countP (fun a => !p a && q a) := by
  induction l with
  | nil => simp
  | cons x xs ih =>
    simp only [List.countP_cons, ih]
    cases hp : p x <;> cases hq : q x <;> simp <;> omega

theorem countP_restrict {α : Type} (l : List α) (p q : α → Bool) :
    l.countP q
      = l.countP (fun a => p a && q a) + l.countP (fun a => !p a && q a) := by
  induction l with
  | nil => simp
  | cons x xs ih =>
    simp only [List.countP_cons, ih]
    cases hp : p x <;> cases hq : q x <;> simp <;> omega

/-- In a duplicate-free list, the number of elements whose image under
`g` lies in a duplicate-free list of images is that list's length. -/
theorem countP_contains_of_nodup {α : Type} (g : α → Nat) (l : List α)
    (ids : List Nat) (hl : (l.map g).Nodup) (hids : ids.Nodup)
    (hsub : ∀ n ∈ ids, n ∈ l.map g) :
    l.countP (fun x => ids.contains (g x)) = ids.length := by
  have h1 : l.countP (fun x => ids.contains (g x))
      = (l.map g).countP (fun n => ids.contains n) := by
    rw [List.countP_map]
    rfl
  rw [h1, List.countP_eq_length_filter]
  have hfn : List.Perm ((l.map g).filter fun n => ids.contains n) ids := by
    rw [List.perm_ext_iff_of_nodup
      (List.Nodup.filter _ hl) hids]
    intro a
    simp only [List.mem_filter]
    constructor
    · intro h
      have := h.2
      simpa using this
    · intro h
      exact ⟨hsub a h, by simpa using h⟩
  exact hfn.length_eq

/-- Marking the admitted ids turns exactly the admitted records (one per
id, unique, previously queued) into `uploading` records. -/
theorem countUploading_markUploading (items : List UploadItem)
    (ids : List Nat) (hl : (items.map UploadItem.id).Nodup)
    (hids : ids.Nodup) (hsub : ∀ n ∈ ids, n ∈ items.map UploadItem.id)
    (hqueued : ∀ i ∈ items, i.id ∈ ids → i.status = Status.queued) :
    countUploading (markUploading ids items)
      = countUploading items + ids.length := by
  unfold countUploading markUploading
  rw [← List.countP_eq_length_filter, ← List.countP_eq_length_filter,
    List.countP_map]
  have hfun : ∀ x ∈ items,
      (((fun i : UploadItem => i.status == Status.uploading) ∘
        (fun i : UploadItem =>
          if ids.contains i.id then applyUpdate i uploadingUpdate else i)) x)
        = true
      ↔ ((ids.contains x.id || (x.status == Status.uploading)) = true) := by
    intro x _
    by_cases hin : x.id ∈ ids
    · simp [Function.comp, hin, applyUpdate, uploadingUpdate]
    · simp [Function.comp, hin]
  rw [List.countP_congr hfun]
  rw [countP_or_split items (fun x => ids.contains x.id)
    (fun x => x.status == Status.uploading)]
  have hc : items.countP (fun x => ids.contains (UploadItem.id x))
      = ids.length :=
    countP_contains_of_nodup UploadItem.id items ids hl hids hsub
  have hsplit := countP_restrict items (fun x => ids.contains x.id)
    (fun x => x.status == Status.uploading)
  have hzero : items.countP
      (fun x => ids.contains x.id && (x.status == Status.uploading)) = 0 := by
    rw [List.countP_eq_zero]
    intro a ha hpred
    simp only [Bool.and_eq_true, beq_iff_eq] at hpred
    have hq := hqueued a ha (by simpa using hpred.1)
    rw [hq] at hpred
    exact absurd hpred.2 (by decide)
  omega

/-- Filtering a duplicate-free list by "image not among the images of
the first `a` elements" drops exactly those first `a` elements. -/
theorem filter_not_contains_take {α : Type} (g : α → Nat) (l : List α)
    (a : Nat) (h : (l.map g).Nodup) :
    l.filter (fun x => !(((l.take a).map g).contains (g x)))
      = l.drop a := by
  induction l generalizing a with
  | nil => simp
  | cons x xs ih =>
    have hh : (∀ y ∈ xs, ¬ g y = g x) ∧ (List.map g xs).Nodup := by
      simpa using h
    cases a with
    | zero => simp
    | succ b =>
      simp only [List.take_succ_cons, List.drop_succ_cons, List.map_cons,
        List.filter_cons]
      have hx : (!((g x :: (xs.take b).map g).contains (g x))) = false := by
        simp [List.contains_cons]
      rw [hx]
      simp only [Bool.false_eq_true, if_false]
      have hcong : ∀ y ∈ xs,
          (!((g x :: (xs.take b).map g).contains (g y)))
          = (!(((xs.take b).map g).contains (g y))) := by
        intro y hy
        have hne : g y ≠ g x := hh.1 y hy
        simp [List.contains_cons, hne]
      rw [List.filter_congr hcong]
      exact ih b hh.2

/-- `slice(0, n)` is a `take` of the list's own prefix length. -/
theorem jsSlice0_eq_take_length {α : Type} (Q : List α) (s : Int) :
    jsSlice0 Q s = Q.take (jsSlice0 Q s).length := by
  unfold jsSlice0
  rw [List.length_take, List.take_eq_take]
  omega

/-- Key arithmetic fact: after one slice of `s` slots from `Q`, slicing
the remainder with the slots that are left yields nothing, for every
sign of `s` (including the JavaScript negative-end behaviour). -/
theorem jsSlice0_drop_empty {α : Type} (Q : List α) (s : Int) :
    jsSlice0 (Q.drop (jsSlice0 Q s).length)
      (s - ((jsSlice0 Q s).length : Int)) = [] := by
  unfold jsSlice0 sliceLen
  rw [← List.length_eq_zero]
  simp only [List.length_take, List.length_drop]
  split_ifs <;> omega

/-- Core idempotence fact at the store level: once a selection has been
applied (records marked `uploading`, ids appended to the in-flight set),
running the selection again over the resulting store admits nothing. -/
theorem admitSelection_post (items : List UploadItem) (ref : List Nat)
    (maxC : Nat) (h : (items.map UploadItem.id).Nodup) :
    admitSelection
      (markUploading ((admitSelection items ref maxC).map UploadItem.id)
        items)
      (ref ++ (admitSelection items ref maxC).map UploadItem.id)
      maxC = [] := by
  have hQsub : (queuedAvail items ref).Sublist items := List.filter_sublist _
  have hQnodup : ((queuedAvail items ref).map UploadItem.id).Nodup :=
    (hQsub.map UploadItem.id).nodup h
  have hadm_take : admitSelection items ref maxC
      = (queuedAvail items ref).take (admitSelection items ref maxC).length :=
    jsSlice0_eq_take_length _ _
  have hadm_subQ : (admitSelection items ref maxC).Sublist
      (queuedAvail items ref) := by
    rw [hadm_take]
    exact List.take_sublist _ _
  have hadm_subI : (admitSelection items ref maxC).Sublist items :=
    hadm_subQ.trans hQsub
  have hids_nodup : ((admitSelection items ref maxC).map UploadItem.id).Nodup :=
    (hadm_subQ.map UploadItem.id).nodup hQnodup
  have hids_sub : ∀ n ∈ (admitSelection items ref maxC).map UploadItem.id,
      n ∈ items.map UploadItem.id :=
    fun n hn => (hadm_subI.map UploadItem.id).subset hn
  have hqueued : ∀ i ∈ items,
      i.id ∈ (admitSelection items ref maxC).map UploadItem.id →
      i.status = Status.queued := by
    intro i hi hmem
    obtain ⟨x, hx, hxid⟩ := List.mem_map.mp hmem
    have hxQ : x ∈ queuedAvail items ref := hadm_subQ.subset hx
    have hxI : x ∈ items := hQsub.subset hxQ
    have heq : x = i := List.inj_on_of_nodup_map h hxI hi hxid
    have hcond := (List.mem_filter.mp hxQ).2
    simp only [Bool.and_eq_true, beq_iff_eq] at hcond
    rw [← heq]
    exact hcond.1
  show jsSlice0
      (queuedAvail
        (markUploading ((admitSelection items ref maxC).map UploadItem.id)
          items)
        (ref ++ (admitSelection items ref maxC).map UploadItem.id))
      ((maxC : Int) -
        (countUploading
          (markUploading ((admitSelection items ref maxC).map UploadItem.id)
            items) : Int)) = []
  rw [queuedAvail_markUploading]
  rw [countUploading_markUploading items _ h hids_nodup hids_sub hqueued]
  have hfilter : (queuedAvail items ref).filter
      (fun i =>
        !(((admitSelection items ref maxC).map UploadItem.id).contains i.id))
      = (queuedAvail items ref).drop (admitSelection items ref maxC).length := by
    have hf := filter_not_contains_take UploadItem.id (queuedAvail items ref)
      (admitSelection items ref maxC).length hQnodup
    rw [← hadm_take] at hf
    exact hf
  rw [hfilter]
  have harith : ((maxC : Int) -
      ((countUploading items +
        ((admitSelection items ref maxC).map UploadItem.id).length : Nat) : Int))
      = ((maxC : Int) - (countUploading items : Int)) -
        ((admitSelection items ref maxC).length : Int) := by
    push_cast [List.length_map]
    ring
  rw [harith]
  exact jsSlice0_drop_empty (queuedAvail items ref)
    ((maxC : Int) - (countUploading items : Int))

theorem find?_eq_head?_filter {α : Type} (p : α → Bool) (l : List α) :
    l.find? p = (l.filter p).head? := by
  induction l with
  | nil => rfl
  | cons x xs ih =>
    cases hx : p x
    · simp only [List.find?_cons, hx, List.filter_cons]
      simp only [Bool.false_eq_true, if_false]
      exact ih
    · simp only [List.find?_cons, hx, List.filter_cons]
      simp

theorem filter_eraseP_of_filter_singleton {α : Type} (p : α → Bool)
    (l : List α) (t : α) (h : l.filter p = [t]) :
    (l.eraseP p).filter p = [] := by
  induction l with
  | nil => simp
  | cons x xs ih =>
    rw [List.filter_cons] at h
    cases hx : p x
    · rw [hx] at h
      simp only [Bool.false_eq_true, if_false] at h
      rw [List.eraseP_cons, hx]
      simp only [cond_false, List.filter_cons, hx]
      simp only [Bool.false_eq_true, if_false]
      exact ih h
    · rw [hx] at h
      simp only [if_true] at h
      have hxt : x = t := by
        injection h
      have htail : xs.filter p = [] := by
        injection h with h1 h2
      rw [List.eraseP_cons, hx]
      simpa using htail

/-- Cancelling maps `abortTransfer` over exactly the transfers with the
given id; the unique such transfer is found aborted afterwards. -/
theorem filter_cancel_transfers (ts : List Transfer) (id : Nat) (t : Transfer)
    (h : ts.filter (fun x => x.item.id == id) = [t]) :
    (ts.map fun x => if x.item.id == id then abortTransfer x else x).filter
      (fun x => x.item.id == id) = [abortTransfer t] := by
  rw [List.filter_map]
  have hcong : ∀ x ∈ ts,
      ((fun x : Transfer => x.item.id == id) ∘
        (fun x : Transfer => if x.item.id == id then abortTransfer x else x)) x
      = (x.item.id == id) := by
    intro x _
    by_cases hx : x.item.id = id
    · have habort : (abortTransfer x).item = x.item := by
        unfold abortTransfer
        cases x.stage <;> rfl
      simp [Function.comp, hx, habort]
    · simp [Function.comp, hx]
  rw [List.filter_congr hcong, h]
  have ht : (t.item.id == id) = true := by
    have hmem : t ∈ ts.filter (fun x => x.item.id == id) := by
      rw [h]
      exact List.mem_singleton.mpr rfl
    exact (List.mem_filter.mp hmem).2
  simp only [List.map_cons, List.map_nil, ht, if_true]

/-- `Math.round` on a nonnegative quotient: `jsRound t n` is the integer
floor of `t / n + 1 / 2`, i.e. the nearest integer with halves rounded
up. -/
theorem jsRound_eq_floor (t n : Nat) (hn : 0 < n) :
    (jsRound t n : ℤ) = ⌊(t : ℚ) / (n : ℚ) + 1 / 2⌋ := by
  unfold jsRound
  have hnq : (0 : ℚ) < (n : ℚ) := by exact_mod_cast hn
  have h2n : (0 : ℚ) < ((2 * n : ℕ) : ℚ) := by
    push_cast
    linarith
  have hlow : (2 * t + n) / (2 * n) * (2 * n) ≤ 2 * t + n :=
    Nat.div_mul_le_self (2 * t + n) (2 * n)
  have hdm : 2 * n * ((2 * t + n) / (2 * n)) + (2 * t + n) % (2 * n)
      = 2 * t + n := Nat.div_add_mod (2 * t + n) (2 * n)
  have hmod : (2 * t + n) % (2 * n) < 2 * n := Nat.mod_lt _ (by omega)
  have hhigh : 2 * t + n < ((2 * t + n) / (2 * n) + 1) * (2 * n) := by
    calc 2 * t + n
        = 2 * n * ((2 * t + n) / (2 * n)) + (2 * t + n) % (2 * n) := hdm.symm
      _ < 2 * n * ((2 * t + n) / (2 * n)) + 2 * n := by omega
      _ = ((2 * t + n) / (2 * n) + 1) * (2 * n) := by ring
  have hx : (t : ℚ) / (n : ℚ) + 1 / 2
      = ((2 * t + n : ℕ) : ℚ) / ((2 * n : ℕ) : ℚ) := by
    push_cast
    rw [div_add_div _ _ (ne_of_gt hnq) (by norm_num : (2:ℚ) ≠ 0)]
    rw [div_eq_div_iff (by positivity) (by push_cast at h2n ⊢; linarith)]
    ring
  rw [hx]
  symm
  rw [Int.floor_eq_iff]
  constructor
  · rw [le_div_iff₀ h2n]
    push_cast
    exact_mod_cast hlow
  · rw [div_lt_iff₀ h2n]
    push_cast
    exact_mod_cast hhigh

/-- Summation form of the `reduce` in the `progress` computation. -/
theorem foldl_progress_eq_sum (l : List UploadItem) (acc : Nat) :
    l.foldl (fun a i => a + i.progress) acc
      = acc + (l.map UploadItem.progress).sum := by
  induction l generalizing acc with
  | nil => simp
  | cons x xs ih =>
    simp [ih, Nat.add_assoc]

/-- Claim C3 (amended): the cancel signal is retroactive in the store:
`cancelUpload` on an already-`complete` record force-sets its status to
`error` with message "Cancelled", but the record keeps its identity,
progress and stored destination (`url` and `key` stay intact), and every
other record is unchanged. -/
theorem c3_cancel_on_complete_amended (S : Sys) (id k : Nat)
    (i : UploadItem) (hk : S.items[k]? = some i) (hid : i.id = id)
    (hst : i.status = Status.complete) :
    (cancelUploadOp S id).items[k]? = some
      { i with status := Status.error, error := some "Cancelled" } ∧
    ∀ k' : Nat, ∀ j : UploadItem, S.items[k']? = some j → j.id ≠ id →
      (cancelUploadOp S id).items[k']? = some j := by
  constructor
  · simp [cancelUploadOp, List.getElem?_map, hk, hid]
  · intro k' j hj hne
    simp [cancelUploadOp, List.getElem?_map, hj, hne]

/-- Claim C3 (amended), witness at the concrete one-record store. -/
theorem c3_cancel_on_complete_amended_witness :
    (cancelUploadOp exCompleteSys 0).items[0]? = some
      { exItemComplete with
        status := Status.error, error := some "Cancelled" } :=
  (c3_cancel_on_complete_amended exCompleteSys 0 0 exItemComplete
    (by decide) (by decide) (by decide)).1

/-- Claim C4 (amended): `cancelUpload(id)` force-sets the record with
that id to `error` with message "Cancelled" regardless of its current
status and leaves all other records unchanged; it triggers the abort
handle of a live transfer with that id, and when the byte transfer is in
flight (resolution already done) the abort makes the transfer reject
with "Upload cancelled", which keeps the record at `error`/"Cancelled",
releases the controller and the admission-in-flight marker, and emits no
callback.  When the cancel instead arrives while the destination is
still being resolved, the transfer is not stopped (see the
counterexample). -/
theorem c4_cancelUpload_amended (S : Sys) (id : Nat) :
    (∀ k : Nat, ∀ i : UploadItem, S.items[k]? = some i →
      (i.id = id → (cancelUploadOp S id).items[k]? = some
        { i with status := Status.error, error := some "Cancelled" }) ∧
      (i.id ≠ id → (cancelUploadOp S id).items[k]? = some i)) ∧
    (∀ t : Transfer, ∀ u v : String,
      S.transfers.filter (fun x => x.item.id == id) = [t] →
      t.item.id = id →
      t.stage = Stage.transferring u v →
      findTransfer (cancelUploadOp S id) id
          = some { t with xhrAborted := true } ∧
      (step (cancelUploadOp S id) (Msg.xhrAbort id)).uploadQueue
          = S.uploadQueue.filter (fun n => n ≠ id) ∧
      findTransfer (step (cancelUploadOp S id) (Msg.xhrAbort id)) id
          = none ∧
      (step (cancelUploadOp S id) (Msg.xhrAbort id)).events = S.events ∧
      (∀ k : Nat, ∀ i : UploadItem, S.items[k]? = some i → i.id = id →
        (step (cancelUploadOp S id) (Msg.xhrAbort id)).items[k]? = some
          { i with status := Status.error, error := some "Cancelled" })) := by
  constructor
  · intro k i hk
    constructor
    · intro hid
      simp [cancelUploadOp, List.getElem?_map, hk, hid]
    · intro hid
      simp [cancelUploadOp, List.getElem?_map, hk, hid]
  · intro t u v hfilt hid hstage
    have habort_t : abortTransfer t = { t with xhrAborted := true } := by
      simp [abortTransfer, hstage]
    have hCfilt : (cancelUploadOp S id).transfers.filter
        (fun x => x.item.id == id) = [abortTransfer t] :=
      filter_cancel_transfers S.transfers id t hfilt
    have hfind : findTransfer (cancelUploadOp S id) id
        = some { t with xhrAborted := true } := by
      rw [findTransfer, find?_eq_head?_filter, hCfilt, habort_t]
      rfl
    have hstage' : ({ t with xhrAborted := true } : Transfer).stage
        = Stage.transferring u v := hstage
    have hstep : step (cancelUploadOp S id) (Msg.xhrAbort id)
        = finishFail (cancelUploadOp S id) { t with xhrAborted := true }
            "Upload cancelled" := by
      simp [step, hfind, hstage']
      rw [hstage]
    have hitemid : ({ t with xhrAborted := true } : Transfer).item.id = id :=
      hid
    refine ⟨hfind, ?_, ?_, ?_, ?_⟩
    · rw [hstep]
      simp only [finishFail, cancelUploadOp, hid]
    · rw [hstep]
      show (dropTransfer (cancelUploadOp S id).transfers
        ({ t with xhrAborted := true } : Transfer).item.id).find?
          (fun x => x.item.id == id) = none
      rw [hitemid, dropTransfer, find?_eq_head?_filter]
      rw [filter_eraseP_of_filter_singleton _ _ _ hCfilt]
      rfl
    · rw [hstep]
      simp [finishFail, cancelUploadOp]
    · intro k i hk hid2
      rw [hstep]
      simp [finishFail, failureUpdate, updateItem, cancelUploadOp,
        List.getElem?_map, hk, hid2, applyUpdate, hitemid]

/-- Claim C4 (amended), witness: cancelling the concrete uploading
record whose byte transfer is in flight, then delivering the abort. -/
theorem c4_cancelUpload_amended_witness :
    findTransfer (cancelUploadOp exUploadingSys 0) 0
      = some { exTransferXfer with xhrAborted := true } ∧
    (step (cancelUploadOp exUploadingSys 0) (Msg.xhrAbort 0)).uploadQueue
      = [] ∧
    findTransfer (step (cancelUploadOp exUploadingSys 0) (Msg.xhrAbort 0)) 0
      = none ∧
    (step (cancelUploadOp exUploadingSys 0) (Msg.xhrAbort 0)).items[0]?
      = some { exItemAUp with
               status := Status.error, error := some "Cancelled" } := by
  have h := (c4_cancelUpload_amended exUploadingSys 0).2 exTransferXfer
    "https://bucket/a" "k/a.txt" (by decide) (by decide) (by decide)
  refine ⟨h.1, ?_, h.2.2.1, h.2.2.2.2 0 exItemAUp (by decide) (by decide)⟩
  rw [h.2.1]
  decide

/-- Claim C5: the admission step is idempotent.  Every record selected
by `processQueue` is `queued` and not already admission-in-flight (no
double admission), and invoking `processQueue` a second time against the
state produced by the first invocation (no intervening change) selects
no record at all. -/
theorem c5_processQueue_idempotent (S : Sys)
    (h : (S.items.map UploadItem.id).Nodup) :
    (∀ i ∈ admitSelection S.items S.uploadQueue S.maxConcurrent,
        i.status = Status.queued ∧ i.id ∉ S.uploadQueue) ∧
    admitSelection (processQueueStep S.items S).items
        (processQueueStep S.items S).uploadQueue
        (processQueueStep S.items S).maxConcurrent = [] := by
  constructor
  · intro i hi
    have hQsub : (queuedAvail S.items S.uploadQueue).Sublist S.items :=
      List.filter_sublist _
    have hadm_take : admitSelection S.items S.uploadQueue S.maxConcurrent
        = (queuedAvail S.items S.uploadQueue).take
            (admitSelection S.items S.uploadQueue S.maxConcurrent).length :=
      jsSlice0_eq_take_length _ _
    have hadm_subQ :
        (admitSelection S.items S.uploadQueue S.maxConcurrent).Sublist
          (queuedAvail S.items S.uploadQueue) := by
      rw [hadm_take]
      exact List.take_sublist _ _
    have hQm : i ∈ queuedAvail S.items S.uploadQueue := hadm_subQ.subset hi
    have hcond := (List.mem_filter.mp hQm).2
    simp only [Bool.and_eq_true, beq_iff_eq, Bool.not_eq_true'] at hcond
    refine ⟨hcond.1, ?_⟩
    simpa using hcond.2
  · have hspec := foldl_startUpload_spec
      (admitSelection S.items S.uploadQueue S.maxConcurrent) S
    have hitems : (processQueueStep S.items S).items
        = markUploading
            ((admitSelection S.items S.uploadQueue S.maxConcurrent).map
              UploadItem.id) S.items := hspec.1
    have href : (processQueueStep S.items S).uploadQueue
        = S.uploadQueue ++
            (admitSelection S.items S.uploadQueue S.maxConcurrent).map
              UploadItem.id := hspec.2.1
    have hmaxC : (processQueueStep S.items S).maxConcurrent
        = S.maxConcurrent := hspec.2.2
    rw [hitems, href, hmaxC]
    exact admitSelection_post S.items S.uploadQueue S.maxConcurrent h

/-- Claim C5, witness: two queued records and `maxConcurrent = 1`: the
first pass admits exactly the first record, and a second pass over the
resulting state admits nothing. -/
theorem c5_processQueue_idempotent_witness :
    admitSelection exQueuedSys.items exQueuedSys.uploadQueue
        exQueuedSys.maxConcurrent = [exItemA] ∧
    admitSelection (processQueueStep exQueuedSys.items exQueuedSys).items
        (processQueueStep exQueuedSys.items exQueuedSys).uploadQueue
        (processQueueStep exQueuedSys.items exQueuedSys).maxConcurrent
        = [] :=
  ⟨by decide, (c5_processQueue_idempotent exQueuedSys (by decide)).2⟩

/-- Claim C6 (amended): terminal failure handling is classified by the
message string alone: a failure whose message is not exactly "Upload
cancelled" appends exactly one `onError` invocation carrying the failure
message and the captured item, and stores that message in the record's
`error`; a failure whose message is exactly "Upload cancelled" (user
cancellation — or any failure that happens to carry this message) stores
"Cancelled" and appends no callback. -/
theorem c6_failure_callbacks_amended (S : Sys) (t : Transfer) (m : String) :
    (m ≠ "Upload cancelled" →
      (finishFail S t m).events
        = S.events ++ [CallbackEvent.errorCb m t.item] ∧
      ∀ k : Nat, ∀ i : UploadItem, S.items[k]? = some i → i.id = t.item.id →
        (finishFail S t m).items[k]? = some
          { i with status := Status.error, error := some m }) ∧
    (m = "Upload cancelled" →
      (finishFail S t m).events = S.events ∧
      ∀ k : Nat, ∀ i : UploadItem, S.items[k]? = some i → i.id = t.item.id →
        (finishFail S t m).items[k]? = some
          { i with status := Status.error, error := some "Cancelled" }) := by
  constructor
  · intro hm
    constructor
    · simp [finishFail, hm]
    · intro k i hk hid
      simp [finishFail, failureUpdate, hm, updateItem, List.getElem?_map, hk,
        hid, applyUpdate]
  · intro hm
    subst hm
    constructor
    · simp [finishFail]
    · intro k i hk hid
      simp [finishFail, failureUpdate, updateItem, List.getElem?_map, hk,
        hid, applyUpdate]

/-- Claim C6 (amended), witness: a transport failure message "boom" on
the concrete uploading state fires `onError` once and is stored. -/
theorem c6_failure_callbacks_amended_witness :
    (finishFail exUploadingSys exTransferXfer "boom").events
      = [CallbackEvent.errorCb "boom" exItemA] ∧
    (finishFail exUploadingSys exTransferXfer "boom").items[0]? = some
      { exItemAUp with status := Status.error, error := some "boom" } := by
  have h := (c6_failure_callbacks_amended exUploadingSys exTransferXfer
    "boom").1 (by decide)
  exact ⟨h.1, h.2 0 exItemAUp (by decide) (by decide)⟩

/-- Claim C7 (amended): `overallProgress` equals the average of
`progress` over the records with status `uploading` or `complete`,
rounded to the nearest integer with halves up; it is 0 when that set is
empty; and appending a `queued` or `error` record leaves the value
unchanged. -/
theorem c7_overallProgress_amended (items : List UploadItem) :
    (items.filter relevantForProgress = [] → overallProgress items = 0) ∧
    (items.filter relevantForProgress ≠ [] →
      (overallProgress items : ℤ) = ⌊specAverage items + 1 / 2⌋) ∧
    (∀ x : UploadItem, x.status = Status.queued ∨ x.status = Status.error →
      overallProgress (items ++ [x]) = overallProgress items) := by
  refine ⟨fun h => ?_, fun h => ?_, fun x hx => ?_⟩
  · simp [overallProgress, h]
  · have hlen : (items.filter relevantForProgress).length ≠ 0 := by
      simpa [List.length_eq_zero] using h
    have hpos : 0 < (items.filter relevantForProgress).length :=
      Nat.pos_of_ne_zero hlen
    rw [overallProgress, specAverage]
    simp only [hlen, if_neg hlen]
    rw [foldl_progress_eq_sum]
    simp only [Nat.zero_add]
    exact jsRound_eq_floor _ _ hpos
  · have hrel : relevantForProgress x = false := by
      rcases hx with hx | hx <;> simp [relevantForProgress, hx]
    simp [overallProgress, List.filter_append, hrel]

/-- Claim C7 (amended), witness: one complete record (progress 100) and
one uploading record (progress 40) give 70, equal to the rounded
average, and appending a queued record does not change the value. -/
theorem c7_overallProgress_amended_witness :
    overallProgress [exItemComplete, exItemUploading40] = 70 ∧
    ((overallProgress [exItemComplete, exItemUploading40] : ℤ)
      = ⌊specAverage [exItemComplete, exItemUploading40] + 1 / 2⌋) ∧
    overallProgress ([exItemComplete, exItemUploading40] ++ [exItemQueued])
      = overallProgress [exItemComplete, exItemUploading40] := by
  refine ⟨by decide,
    (c7_overallProgress_amended [exItemComplete, exItemUploading40]).2.1
      (by decide),
    (c7_overallProgress_amended [exItemComplete, exItemUploading40]).2.2
      exItemQueued (Or.inl (by decide))⟩

/-- Claim C8: `clearCompleted` removes exactly the records with terminal
status: the result is a sublist of the original store (surviving records
keep their identity, fields and relative order), it leaves transfers and
refs alone, and a record survives iff it is in the store and neither
`complete` nor `error`. -/
theorem c8_clearCompleted_exact (S : Sys) :
    (clearCompletedOp S).items.Sublist S.items ∧
    (∀ i : UploadItem, i ∈ (clearCompletedOp S).items ↔
      i ∈ S.items ∧ i.status ≠ Status.complete ∧ i.status ≠ Status.error) ∧
    (clearCompletedOp S).transfers = S.transfers ∧
    (clearCompletedOp S).uploadQueue = S.uploadQueue := by
  refine ⟨List.filter_sublist _, fun i => ?_, rfl, rfl⟩
  simp [clearCompletedOp, List.mem_filter, and_assoc]

/-- Claim C8, witness at a concrete store: the completed record is
removed by `clearCompleted`. -/
theorem c8_clearCompleted_exact_witness :
    (clearCompletedOp exCompleteSys).items.Sublist exCompleteSys.items ∧
    exItemComplete ∉ (clearCompletedOp exCompleteSys).items := by
  refine ⟨(c8_clearCompleted_exact exCompleteSys).1, fun hmem => ?_⟩
  have h := ((c8_clearCompleted_exact exCompleteSys).2.1 exItemComplete).1 hmem
  exact h.2.1 (by decide)

/-- Claim C9: `retryUpload` imposes no status precondition: whatever the
record's current status, it is reset to `queued` with progress 0 and its
error cleared (all other fields intact), every other record is left
unchanged, the live transfers and the admission-in-flight markers are
untouched (an old in-flight transfer for the id keeps running), and one
deferred admission pass is scheduled. -/
theorem c9_retryUpload_no_precondition (S : Sys) (id : Nat) :
    (∀ k : Nat, ∀ i : UploadItem, S.items[k]? = some i →
      (i.id = id →
        (retryUploadOp S id).items[k]? = some
          { i with status := Status.queued, progress := 0, error := none }) ∧
      (i.id ≠ id → (retryUploadOp S id).items[k]? = some i)) ∧
    (retryUploadOp S id).transfers = S.transfers ∧
    (retryUploadOp S id).uploadQueue = S.uploadQueue ∧
    (retryUploadOp S id).scheduled = S.scheduled ++ [S.items] := by
  refine ⟨fun k i hk => ⟨fun hid => ?_, fun hid => ?_⟩, rfl, rfl, rfl⟩
  · simp [retryUploadOp, List.getElem?_map, hk, hid]
  · simp [retryUploadOp, List.getElem?_map, hk, hid]

/-- Claim C9, witness: retrying the completed record in a concrete store
re-queues it. -/
theorem c9_retryUpload_no_precondition_witness :
    (retryUploadOp exCompleteSys 0).items[0]? = some
      { exItemComplete with
        status := Status.queued, progress := 0, error := none } :=
  (((c9_retryUpload_no_precondition exCompleteSys 0).1 0 exItemComplete
    (by decide)).1 (by decide))

/-- Claim C10: failure classification is by error-message string: a
resolver rejection whose non-2xx response body carries
`error = "Upload cancelled"` throws exactly the message
"Upload cancelled", and processing that failure stores "Cancelled" in
the record's `error` and appends no `onError` callback, although no
cancel was requested. -/
theorem c10_cancel_classified_by_message (S : Sys) (id : Nat)
    (t : Transfer) (msgField : Option String)
    (ht : findTransfer S id = some t) (hst : t.stage = Stage.resolving) :
    resolverFailureMsg (some "Upload cancelled") msgField
      = "Upload cancelled" ∧
    (step S (Msg.resolveHttpErr id (some "Upload cancelled") msgField)).events
      = S.events ∧
    ∀ k : Nat, ∀ i : UploadItem, S.items[k]? = some i → i.id = t.item.id →
      (step S (Msg.resolveHttpErr id (some "Upload cancelled") msgField)).items[k]?
        = some { i with status := Status.error, error := some "Cancelled" } := by
  have hmsg : resolverFailureMsg (some "Upload cancelled") msgField
      = "Upload cancelled" := rfl
  have hstep : step S (Msg.resolveHttpErr id (some "Upload cancelled") msgField)
      = finishFail S t "Upload cancelled" := by
    simp [step, ht, hst, hmsg]
  refine ⟨hmsg, ?_, ?_⟩
  · rw [hstep]
    simp [finishFail]
  · intro k i hk hid
    rw [hstep]
    simp [finishFail, failureUpdate, updateItem, List.getElem?_map, hk, hid,
      applyUpdate]

/-- Claim C10, witness: the concrete resolver rejection with body
`{"error": "Upload cancelled"}` on the resolving state. -/
theorem c10_cancel_classified_by_message_witness :
    (step exResolvingSys
      (Msg.resolveHttpErr 0 (some "Upload cancelled") none)).events = [] ∧
    (step exResolvingSys
      (Msg.resolveHttpErr 0 (some "Upload cancelled") none)).items[0]?
      = some { exItemAUp with
               status := Status.error, error := some "Cancelled" } := by
  have h := c10_cancel_classified_by_message exResolvingSys 0
    exTransferResolving none (by decide) (by decide)
  exact ⟨h.2.1, h.2.2 0 exItemAUp (by decide) (by decide)⟩

end BucketKit
